import Mathlib

/-!
A verification development for the LenseForge storefront scripts
(src/script.js, src/detail.js, src/cart.js).

The JavaScript functions that the claims concern are shallowly embedded as
Lean definitions.  Conventions of the embedding:

- JavaScript numbers are modelled by rationals (the arithmetic appearing in
  the code stays within values doubles represent exactly for all realistic
  inputs; the non-finite values NaN and Infinity are modelled by the failure
  case of parse functions where the code produces them, and are otherwise out
  of scope).
- JavaScript strings are Lean strings; the platform functions toLowerCase,
  trim, includes, parseInt, parseFloat and replace-first are re-implemented
  below on the character list of the string, following the ECMAScript
  behaviour on the ASCII fragment the application uses.
- localStorage plus JSON.parse / JSON.stringify are modelled at the level of
  parsed JSON values: a stored string is represented by its parse status
  (absent key, string rejected by JSON.parse, or string accepted with a given
  parsed value), and JSON.stringify of a value is a string that parses back
  to that value.  This inverse-pair behaviour is exact in the platform
  (doubles round-trip through their shortest decimal printing).
- Fallible or exception-throwing code is modelled with Option / Except.
-/

namespace LenseForge

/-! ## JavaScript string primitives -/

/-- ASCII lower-casing of one character, as toLowerCase acts on the
catalogue data (letters A-Z map to a-z, everything else is fixed). -/
def charToLower (c : Char) : Char :=
  if 'A' ≤ c ∧ c ≤ 'Z' then Char.ofNat (c.toNat + 32) else c

/-- Model of String.prototype.toLowerCase on the ASCII fragment. -/
def jsToLower (s : String) : String :=
  String.mk (s.data.map charToLower)

/-- Whitespace recognised by the model of trim and parseInt / parseFloat. -/
def jsIsSpaceChar (c : Char) : Bool :=
  c = ' ' || c = '\t' || c = '\n' || c = '\r' || c = '\x0b' || c = '\x0c'

/-- Model of String.prototype.trim. -/
def jsTrim (s : String) : String :=
  String.mk (((s.data.dropWhile jsIsSpaceChar).reverse.dropWhile jsIsSpaceChar).reverse)

/-- Does the character list start with the given needle? -/
def startsWithChars : List Char → List Char → Bool
  | _, [] => true
  | [], _ :: _ => false
  | h :: hs, n :: ns => h = n && startsWithChars hs ns

/-- Substring occurrence on character lists (scan every suffix). -/
def includesChars (needle : List Char) : List Char → Bool
  | [] => startsWithChars [] needle
  | h :: hs => startsWithChars (h :: hs) needle || includesChars needle hs

/-- Model of String.prototype.includes. -/
def strIncludes (s pat : String) : Bool :=
  includesChars pat.data s.data

/-- Model of String.prototype.replace with a one-character string pattern:
only the first occurrence is replaced (here: removed). -/
def removeFirstChar (target : Char) : List Char → List Char
  | [] => []
  | c :: cs => if c = target then cs else c :: removeFirstChar target cs

/-- The call price.replace of the dollar sign with the empty string in
calculateCart (src/cart.js line 116): removes the FIRST occurrence of the
dollar sign, wherever it is. -/
def removeFirstDollar (s : String) : String :=
  String.mk (removeFirstChar '$' s.data)

def isDecDigit (c : Char) : Bool := '0' ≤ c && c ≤ '9'

def isHexDigit (c : Char) : Bool :=
  ('0' ≤ c && c ≤ '9') || ('a' ≤ c && c ≤ 'f') || ('A' ≤ c && c ≤ 'F')

def decDigitVal (c : Char) : ℕ := c.toNat - '0'.toNat

def hexDigitVal (c : Char) : ℕ :=
  if '0' ≤ c && c ≤ '9' then c.toNat - '0'.toNat
  else if 'a' ≤ c && c ≤ 'f' then c.toNat - 'a'.toNat + 10
  else c.toNat - 'A'.toNat + 10

def decDigitsToNat (ds : List Char) : ℕ :=
  ds.foldl (fun acc c => 10 * acc + decDigitVal c) 0

def hexDigitsToNat (ds : List Char) : ℕ :=
  ds.foldl (fun acc c => 16 * acc + hexDigitVal c) 0

/-- Split a leading sign off a character list; returns true for negative. -/
def readSign : List Char → Bool × List Char
  | '-' :: rest => (true, rest)
  | '+' :: rest => (false, rest)
  | cs => (false, cs)

/-- Model of the global parseInt with no radix argument, as used in
getProductIdFromURL (src/detail.js line 74): skip whitespace, optional sign,
then either a 0x / 0X hexadecimal literal or leading decimal digits; parsing
stops at the first invalid character; no digits at all gives NaN, modelled
as none. -/
def jsParseInt (s : String) : Option ℤ :=
  let cs := s.data.dropWhile jsIsSpaceChar
  let (neg, cs1) := readSign cs
  let valNat : Option ℕ :=
    match cs1 with
    | '0' :: 'x' :: rest =>
        let ds := rest.takeWhile isHexDigit
        if ds = [] then none else some (hexDigitsToNat ds)
    | '0' :: 'X' :: rest =>
        let ds := rest.takeWhile isHexDigit
        if ds = [] then none else some (hexDigitsToNat ds)
    | cs2 =>
        let ds := cs2.takeWhile isDecDigit
        if ds = [] then none else some (decDigitsToNat ds)
  valNat.map (fun n => if neg then -(n : ℤ) else (n : ℤ))

/-- The digit structure of a parsed decimal literal: sign, the mantissa
digits read as one natural number, how many of them sit after the point,
and the exponent. -/
structure FloatRepr where
  neg : Bool
  mantissa : ℕ
  fracLen : ℕ
  exp : ℤ
deriving DecidableEq

/-- The digit-level part of the global parseFloat, as used in calculateCart
(src/cart.js line 116): skip whitespace, optional sign, then the longest
prefix of the shape digits [ . digits ] [ e|E [sign] digits ]; at least one
mantissa digit is required, otherwise NaN, modelled as none.  (The special
prefixes Infinity and NaN of the full ECMAScript grammar have no rational
value and do not occur in price data; they are outside this model.) -/
def jsParseFloatRepr (s : String) : Option FloatRepr :=
  let cs := s.data.dropWhile jsIsSpaceChar
  let (neg, cs1) := readSign cs
  let intDigits := cs1.takeWhile isDecDigit
  let cs2 := cs1.dropWhile isDecDigit
  let (fracDigits, cs3) :=
    match cs2 with
    | '.' :: rest => (rest.takeWhile isDecDigit, rest.dropWhile isDecDigit)
    | _ => ([], cs2)
  if intDigits = [] ∧ fracDigits = [] then none
  else
    let expPart : ℤ :=
      match cs3 with
      | 'e' :: rest =>
          let (eneg, rest1) := readSign rest
          let ds := rest1.takeWhile isDecDigit
          if ds = [] then 0
          else if eneg then -(decDigitsToNat ds : ℤ) else (decDigitsToNat ds : ℤ)
      | 'E' :: rest =>
          let (eneg, rest1) := readSign rest
          let ds := rest1.takeWhile isDecDigit
          if ds = [] then 0
          else if eneg then -(decDigitsToNat ds : ℤ) else (decDigitsToNat ds : ℤ)
      | _ => 0
    some { neg := neg
           mantissa := decDigitsToNat (intDigits ++ fracDigits)
           fracLen := fracDigits.length
           exp := expPart }

/-- The rational value of a parsed decimal literal. -/
def floatReprVal (r : FloatRepr) : ℚ :=
  let magnitude : ℚ := ((r.mantissa : ℚ) / (10 : ℚ) ^ r.fracLen) * (10 : ℚ) ^ r.exp
  if r.neg then -magnitude else magnitude

/-- Model of the global parseFloat (value level). -/
def jsParseFloat (s : String) : Option ℚ :=
  (jsParseFloatRepr s).map floatReprVal

/-! ## Data model -/

/-- The price field of a record coming from JSON: the catalogue uses JSON
numbers, but calculateCart (src/cart.js lines 115-116) defends against
string-valued prices, so both shapes are modelled. -/
inductive PriceVal where
  | num (q : ℚ)
  | str (s : String)
deriving DecidableEq

/-- A catalogue record, as consumed by the scripts (data.json element). -/
structure Product where
  id : ℤ
  name : String
  brand : String
  category : String
  summary : Option String
  details : String
  price : PriceVal
  displayPrice : Option String
  images : List String
deriving DecidableEq

/-- One entry of the persisted cart: the projection of a Product built by
addToCart (src/detail.js lines 279-288).  There is no details field. -/
structure CartLineItem where
  id : ℤ
  name : String
  brand : String
  summary : Option String
  price : PriceVal
  displayPrice : String
  images : List String
  category : String
deriving DecidableEq

/-! ## Catalog Store operations (src/script.js) -/

/-- Category filtering, the ternary of handleCategoryFilter
(src/script.js lines 193-195) and setupCategories (lines 329-331):
the sentinel All returns the input itself, any other category keeps the
records whose category field is strictly equal to it. -/
def filterByCategory (allProducts : List Product) (category : String) : List Product :=
  if category = "All" then allProducts
  else allProducts.filter (fun p => p.category == category)

/-- One disjunct of the search predicate: the summary field is matched only
when it is present and truthy (src/script.js line 215). -/
def summaryMatches (summary : Option String) (query : String) : Bool :=
  match summary with
  | some s => (s != "") && strIncludes (jsToLower s) query
  | none => false

/-- filterProducts (src/script.js lines 202-221): an empty query string
(falsy) restores the full catalogue, otherwise keep the products whose
lower-cased name, brand, category or truthy summary contains the query. -/
def filterProducts (allProducts : List Product) (query : String) : List Product :=
  if query = "" then allProducts
  else allProducts.filter (fun product =>
    strIncludes (jsToLower product.name) query ||
    strIncludes (jsToLower product.brand) query ||
    strIncludes (jsToLower product.category) query ||
    summaryMatches product.summary query)

/-- The query normalisation performed by handleSearch
(src/script.js line 172): toLowerCase then trim. -/
def handleSearchQuery (raw : String) : String :=
  jsTrim (jsToLower raw)

/-- The search pipeline: debounced handleSearch normalises the raw input and
hands it to filterProducts. -/
def search (allProducts : List Product) (raw : String) : List Product :=
  filterProducts allProducts (handleSearchQuery raw)

/-! ## Cart Ledger: totals (src/cart.js) -/

/-- The SHIPPING_RATES configuration object (src/cart.js lines 22-28). -/
structure ShippingRatesCfg where
  BASE : ℕ
  ONE_ITEM : ℕ
  TWO_ITEMS : ℕ
  THREE_TO_FIVE : ℕ
  SIX_PLUS : ℕ

def SHIPPING_RATES : ShippingRatesCfg :=
  { BASE := 0, ONE_ITEM := 170, TWO_ITEMS := 220, THREE_TO_FIVE := 270, SIX_PLUS := 350 }

/-- calculateShipping (src/cart.js lines 127-134). -/
def calculateShipping (itemCount : ℕ) : ℕ :=
  if itemCount = 0 then SHIPPING_RATES.BASE
  else if itemCount = 1 then SHIPPING_RATES.ONE_ITEM
  else if itemCount = 2 then SHIPPING_RATES.TWO_ITEMS
  else if 3 ≤ itemCount ∧ itemCount ≤ 5 then SHIPPING_RATES.THREE_TO_FIVE
  else if 6 ≤ itemCount then SHIPPING_RATES.SIX_PLUS
  else SHIPPING_RATES.BASE

/-- The per-item price coercion inside calculateCart
(src/cart.js lines 115-116): a number is used as is; anything else is
defaulted to the string 0 when falsy, converted to a string, has its first
dollar sign removed, and is given to parseFloat, a NaN result being
replaced by 0 via the or-else with 0. -/
def coercePrice : PriceVal → ℚ
  | .num q => q
  | .str s =>
      let effective := if s = "" then "0" else s
      match jsParseFloat (removeFirstDollar effective) with
      | some q => q
      | none => 0

/-- The derived totals (never persisted). -/
structure DerivedTotals where
  subtotal : ℚ
  shipping : ℚ
  total : ℚ
deriving DecidableEq

/-- calculateCart (src/cart.js lines 109-125): fold the coerced prices into
the subtotal, take the shipping tier of the item count, and add them. -/
def calculateCart (cart : List CartLineItem) : DerivedTotals :=
  let subtotal : ℚ := cart.foldl (fun acc item => acc + coercePrice item.price) 0
  let shipping : ℚ := (calculateShipping cart.length : ℕ)
  { subtotal := subtotal, shipping := shipping, total := subtotal + shipping }

/-! ## Cart Ledger: add and remove -/

inductive AddOutcome where
  | added
  | alreadyPresent
deriving DecidableEq

inductive RemoveOutcome where
  | indexOutOfRange
  | removed (name : String)
deriving DecidableEq

/-- Array.prototype.findIndex: index of the first match, -1 when none. -/
def jsFindIndexAux (p : α → Bool) : List α → ℤ → ℤ
  | [], _ => -1
  | x :: xs, i => if p x then i else jsFindIndexAux p xs (i + 1)

def jsFindIndex (p : α → Bool) (l : List α) : ℤ :=
  jsFindIndexAux p l 0

/-- The or-else of a possibly missing / empty string with a default
(the JavaScript logical or on strings, where the empty string is falsy). -/
def jsStrOrElse (o : Option String) (d : String) : String :=
  match o with
  | some s => if s = "" then d else s
  | none => d

/-- String interpolation of a price value into the template literal of the
displayPrice default: a string interpolates as itself, a number as its
decimal printing.  The printing is modelled exactly for the terminating
decimals that occur as JavaScript numbers here: an integer prints without a
point, otherwise the shortest fraction suffix is used. -/
def priceToDisplayString : PriceVal → String
  | .str s => s
  | .num q =>
      if q.den = 1 then toString q.num
      else
        match (List.range 30).find? (fun k => (q * (10 : ℚ) ^ (k + 1)).den = 1) with
        | some k =>
            let digits := k + 1
            let n := (q * (10 : ℚ) ^ digits).num
            let m := n.natAbs
            let intPart := m / 10 ^ digits
            let fracDigits := toString (m % 10 ^ digits)
            let pad := String.mk (List.replicate (digits - fracDigits.length) '0')
            (if n < 0 then "-" else "") ++ toString intPart ++ "." ++ pad ++ fracDigits
        | none => toString q.num ++ "/" ++ toString q.den

/-- The cart projection literal of addToCart (src/detail.js lines 279-288):
copies every field except details, and defaults displayPrice to a dollar
sign followed by the interpolated price when the product has no truthy
displayPrice of its own. -/
def projectCartItem (product : Product) : CartLineItem :=
  { id := product.id
    name := product.name
    brand := product.brand
    summary := product.summary
    price := product.price
    displayPrice := jsStrOrElse product.displayPrice ("$" ++ priceToDisplayString product.price)
    images := product.images
    category := product.category }

/-- addToCart (src/detail.js lines 265-306), on the cart it read from
storage: findIndex on the id; a hit leaves the cart alone and reports the
duplicate, otherwise the projected line item is pushed. -/
def addToCart (cart : List CartLineItem) (product : Product) : List CartLineItem × AddOutcome :=
  let existingIndex := jsFindIndex (fun item => item.id == product.id) cart
  if existingIndex ≠ -1 then (cart, .alreadyPresent)
  else (cart ++ [projectCartItem product], .added)

/-- removeItemFromCart (src/cart.js lines 248-266): an index outside
the bounds returns early leaving the cart alone; otherwise the name at the
index is read, splice removes that one element, and the toast reports the
name. -/
def removeItemFromCart (cart : List CartLineItem) (index : ℤ) : List CartLineItem × RemoveOutcome :=
  if h : 0 ≤ index ∧ index < (cart.length : ℤ) then
    let i := index.toNat
    (cart.take i ++ cart.drop (i + 1),
     .removed (cart.get ⟨i, by omega⟩).name)
  else (cart, .indexOutOfRange)

/-! ## Persistence: localStorage and JSON (platform primitives)

The single storage key holds a string (or is absent).  JSON.parse and
JSON.stringify are platform primitives, modelled at the level of parsed
JSON values: a stored string is represented by its parse status, and
stringify of a value produces a string that parses back to exactly that
value (exact on the platform, where doubles round-trip through their
decimal printing). -/

/-- A JSON value, the codomain of JSON.parse. -/
inductive Js where
  | null
  | bool (b : Bool)
  | num (q : ℚ)
  | str (s : String)
  | arr (elements : List Js)
  | obj (fields : List (String × Js))

/-- The content of the cart storage key, represented by how JSON.parse
treats it. -/
inductive StoredVal where
  | absent
  | malformed (raw : String)
  | wellFormed (v : Js)

/-- JavaScript truthiness of a parsed JSON value (undefined cannot be
produced by JSON.parse). -/
def jsFalsy : Js → Bool
  | .null => true
  | .bool b => !b
  | .num q => q == 0
  | .str s => s == ""
  | .arr _ => false
  | .obj _ => false

/-- loadCartFromStorage (src/cart.js lines 99-107): a missing key gives the
falsy null, hence the empty array; a string JSON.parse rejects lands in the
catch branch, which also installs the empty array; an accepted string is
nonempty, hence truthy, and its parsed value becomes the cart as is. -/
def loadCartFromStorage : StoredVal → Js
  | .absent => .arr []
  | .malformed _ => .arr []
  | .wellFormed v => v

/-- window.getCart (src/script.js lines 500-502): JSON.parse of the raw
getItem result with NO try / catch around it — a rejected string throws a
SyntaxError to the caller, modelled by the error case.  A missing key gives
JSON.parse(null), which parses the coerced string null to the null value,
and the or-else with the empty array replaces any falsy parse result. -/
def getCart : StoredVal → Except String Js
  | .absent => .ok (.arr [])
  | .malformed _ => .error "SyntaxError"
  | .wellFormed v => .ok (if jsFalsy v then .arr [] else v)

/-- JSON.stringify of one cart line item, as the object literal of
addToCart lays the fields out (an absent summary field is omitted; the
price serialises as the number or string it is). -/
def priceToJs : PriceVal → Js
  | .num q => .num q
  | .str s => .str s

def cartItemToJs (item : CartLineItem) : Js :=
  .obj ([("id", Js.num (item.id : ℚ)),
         ("name", Js.str item.name),
         ("brand", Js.str item.brand)] ++
        (match item.summary with
         | some s => [("summary", Js.str s)]
         | none => []) ++
        [("price", priceToJs item.price),
         ("displayPrice", Js.str item.displayPrice),
         ("images", Js.arr (item.images.map Js.str)),
         ("category", Js.str item.category)])

def cartToJs (cart : List CartLineItem) : Js :=
  .arr (cart.map cartItemToJs)

/-- setItem of the key to JSON.stringify of the typed cart
(src/cart.js line 255, src/detail.js line 294): the stored string parses
back to exactly the serialised value. -/
def persistCart (cart : List CartLineItem) : StoredVal :=
  .wellFormed (cartToJs cart)

/-- setItem of the key to JSON.stringify of an already parsed value (the
duck-typed cart the scripts pass around). -/
def persistJs (v : Js) : StoredVal :=
  .wellFormed v

/-! ## Detail page navigation (src/detail.js) -/

/-- getProductIdFromURL (src/detail.js lines 61-87): a missing or empty
(falsy) query parameter is rejected; parseInt of the raw value must give a
number, and a NaN or non-positive result is rejected. -/
def getProductIdFromURL (idParam : Option String) : Option ℤ :=
  match idParam with
  | none => none
  | some raw =>
      if raw = "" then none
      else
        match jsParseInt raw with
        | none => none
        | some id => if id ≤ 0 then none else some id

/-- What the detail page ends up presenting. -/
inductive DetailView where
  | notFound
  | productDetail (p : Product)
deriving DecidableEq

/-- loadProductDetails (src/detail.js lines 90-130) after the catalogue
fetch: find the product with the strictly equal id, show the not-found
state when there is none. -/
def loadProductDetails (products : List Product) (productId : ℤ) : DetailView :=
  match products.find? (fun p => p.id == productId) with
  | none => .notFound
  | some product => .productDetail product

/-- The page initialisation pipeline (src/detail.js lines 9-34): a null
product id short-circuits to the not-found state, otherwise
loadProductDetails runs. -/
def detailPage (products : List Product) (idParam : Option String) : DetailView :=
  match getProductIdFromURL idParam with
  | none => .notFound
  | some pid => loadProductDetails products pid

/-! ## Specification-side definitions

The following definitions follow the words of the specification claims, to
be compared against the definitions translated from the source. -/

/-- Strip a LEADING dollar sign only, as claim C2 words the price coercion
(for comparison with removeFirstDollar, which the code actually does). -/
def stripLeadingDollar (s : String) : String :=
  match s.data with
  | '$' :: rest => String.mk rest
  | _ => s

/-- The price coercion as claim C2 states it: a numeric value is used
itself, otherwise the string has a leading dollar sign stripped and is
parsed as a decimal, unparsable values contributing 0. -/
def claimCoercedPrice : PriceVal → ℚ
  | .num q => q
  | .str s =>
      match jsParseFloat (stripLeadingDollar s) with
      | some q => q
      | none => 0

/-- The price coercion as amended: the FIRST occurrence of a dollar sign,
wherever it sits in the string, is removed before the decimal parse;
empty or unparsable values contribute 0. -/
def amendedCoercedPrice : PriceVal → ℚ
  | .num q => q
  | .str s =>
      match jsParseFloat (removeFirstDollar s) with
      | some q => q
      | none => 0

/-- q occurs as a contiguous substring of s: an explicit decomposition of
the character list. -/
def OccursIn (q s : String) : Prop :=
  ∃ pre post : List Char, s.data = pre ++ q.data ++ post

/-- The search predicate as claim C6 states it: the query occurs
case-insensitively in the name, brand or category, or in the summary when
that field is present.  (The query argument is the normalised, already
lower-cased one produced by handleSearchQuery.) -/
def specSearchMatch (p : Product) (q : String) : Prop :=
  OccursIn q (jsToLower p.name) ∨
  OccursIn q (jsToLower p.brand) ∨
  OccursIn q (jsToLower p.category) ∨
  (∃ s, p.summary = some s ∧ OccursIn q (jsToLower s))

/-- The invariant of claim C8: all line-item ids in the cart are pairwise
distinct. -/
def CartIdsNodup (cart : List CartLineItem) : Prop :=
  (cart.map (fun item => item.id)).Nodup

/-- The carts reachable from the empty cart by the add and remove
operations of the scripts. -/
inductive ReachableCart : List CartLineItem → Prop where
  | empty : ReachableCart []
  | add (cart : List CartLineItem) (product : Product) :
      ReachableCart cart → ReachableCart (addToCart cart product).1
  | remove (cart : List CartLineItem) (index : ℤ) :
      ReachableCart cart → ReachableCart (removeItemFromCart cart index).1

/-! ## Sample data for witnesses -/

def sampleProduct : Product :=
  { id := 1
    name := "Aurora 5D"
    brand := "Canox"
    category := "Cameras"
    summary := some "A full-frame camera"
    details := "A camera body with summary specs"
    price := .str "$100"
    displayPrice := some "$100"
    images := ["aurora.jpg"] }

def sampleProduct2 : Product :=
  { id := 2
    name := "Lumen 50mm"
    brand := "Nippon"
    category := "Camera Lenses"
    summary := some "A prime lens"
    details := "A lens"
    price := .str "$250.50"
    displayPrice := some "$250.50"
    images := ["lumen.jpg"] }

def sampleItemA : CartLineItem := projectCartItem sampleProduct

def sampleItemB : CartLineItem := projectCartItem sampleProduct2

/-- The counterexample line item of claim C2: its string price carries a
dollar sign BETWEEN the digits. -/
def cexItem : CartLineItem :=
  { id := 7
    name := "Oddly priced"
    brand := "Canox"
    summary := some "A strange price tag"
    price := .str "1$2"
    displayPrice := "1$2"
    images := ["odd.jpg"]
    category := "Accessories" }

/-! ## Helper lemmas -/

theorem startsWithChars_iff (hay needle : List Char) :
    startsWithChars hay needle = true ↔ ∃ rest, hay = needle ++ rest := by
  induction needle generalizing hay with
  | nil => simp [startsWithChars]
  | cons n ns ih =>
    cases hay with
    | nil =>
      simp [startsWithChars]
    | cons h hs =>
      simp only [startsWithChars, Bool.and_eq_true, decide_eq_true_eq, ih, List.cons_append,
        List.cons.injEq]
      constructor
      · rintro ⟨rfl, rest, rfl⟩
        exact ⟨rest, rfl, rfl⟩
      · rintro ⟨rest, rfl, rfl⟩
        exact ⟨rfl, rest, rfl⟩

theorem includesChars_iff (needle hay : List Char) :
    includesChars needle hay = true ↔ ∃ pre post, hay = pre ++ needle ++ post := by
  induction hay with
  | nil =>
    simp only [includesChars, startsWithChars_iff]
    constructor
    · rintro ⟨rest, h⟩
      exact ⟨[], rest, by simpa using h⟩
    · rintro ⟨pre, post, h⟩
      exact ⟨post ++ pre, by simp at h ⊢; tauto⟩
  | cons h hs ih =>
    simp only [includesChars, Bool.or_eq_true, startsWithChars_iff, ih]
    constructor
    · rintro (⟨rest, heq⟩ | ⟨pre, post, heq⟩)
      · exact ⟨[], rest, by simpa using heq⟩
      · exact ⟨h :: pre, post, by simp [heq]⟩
    · rintro ⟨pre, post, heq⟩
      cases pre with
      | nil =>
        exact Or.inl ⟨post, by simpa using heq⟩
      | cons p ps =>
        simp only [List.cons_append, List.cons.injEq] at heq
        exact Or.inr ⟨ps, post, heq.2⟩

theorem strIncludes_iff (s q : String) :
    strIncludes s q = true ↔ OccursIn q s := by
  simpa [strIncludes, OccursIn] using includesChars_iff q.data s.data

theorem data_eq_nil_iff (s : String) : s.data = [] ↔ s = "" := by
  constructor
  · intro h
    exact String.ext (by simpa using h)
  · rintro rfl
    rfl

theorem summaryMatches_iff (summary : Option String) (q : String) (hq : q ≠ "") :
    summaryMatches summary q = true ↔ ∃ s, summary = some s ∧ OccursIn q (jsToLower s) := by
  cases summary with
  | none => simp [summaryMatches]
  | some s =>
    simp only [summaryMatches, Bool.and_eq_true, bne_iff_ne, ne_eq, strIncludes_iff,
      Option.some.injEq]
    constructor
    · rintro ⟨hne, hocc⟩
      exact ⟨s, rfl, hocc⟩
    · rintro ⟨t, rfl, hocc⟩
      refine ⟨?_, hocc⟩
      rintro rfl
      obtain ⟨pre, post, h⟩ := hocc
      have hdata : q.data = [] := by
        have : ([] : List Char) = pre ++ q.data ++ post := by simpa [jsToLower] using h
        simpa using (List.append_eq_nil.mp (List.append_eq_nil.mp this.symm).1).2
      exact hq ((data_eq_nil_iff q).mp hdata)

theorem jsFindIndexAux_eq_neg_one_iff (p : α → Bool) (l : List α) (i : ℤ) (hi : 0 ≤ i) :
    jsFindIndexAux p l i = -1 ↔ ∀ x ∈ l, p x = false := by
  induction l generalizing i with
  | nil => simp [jsFindIndexAux]
  | cons x xs ih =>
    simp only [jsFindIndexAux]
    by_cases hx : p x
    · rw [if_pos hx]
      constructor
      · intro h
        omega
      · intro h
        exact absurd hx (by simpa using h x (by simp))
    · rw [if_neg hx]
      rw [ih (i + 1) (by omega)]
      constructor
      · intro h y hy
        rcases List.mem_cons.mp hy with rfl | hmem
        · simpa using hx
        · exact h y hmem
      · intro h y hy
        exact h y (List.mem_cons_of_mem x hy)

theorem jsFindIndex_eq_neg_one_iff (p : α → Bool) (l : List α) :
    jsFindIndex p l = -1 ↔ ∀ x ∈ l, p x = false :=
  jsFindIndexAux_eq_neg_one_iff p l 0 le_rfl

theorem foldl_add_prices (l : List CartLineItem) (a : ℚ) :
    l.foldl (fun acc item => acc + coercePrice item.price) a
      = a + (l.map (fun item => coercePrice item.price)).sum := by
  induction l generalizing a with
  | nil => simp
  | cons x xs ih => simp [List.foldl_cons, ih, add_assoc]

theorem coercePrice_eq_amended (p : PriceVal) :
    coercePrice p = amendedCoercedPrice p := by
  cases p with
  | num q => rfl
  | str s =>
    by_cases hs : s = ""
    · subst hs
      have h0 : jsParseFloatRepr (removeFirstDollar "0")
          = some { neg := false, mantissa := 0, fracLen := 0, exp := 0 } := by decide
      have hemp : jsParseFloatRepr (removeFirstDollar "") = none := by decide
      simp only [coercePrice, amendedCoercedPrice, eq_self_iff_true, if_true, jsParseFloat,
        h0, hemp, Option.map_some', Option.map_none']
      norm_num [floatReprVal]
    · simp only [coercePrice, amendedCoercedPrice, if_neg hs]

theorem calculateShipping_cases (n : ℕ) :
    calculateShipping n =
      (if n = 0 then 0 else if n = 1 then 170 else if n = 2 then 220
       else if n ≤ 5 then 270 else 350) := by
  simp only [calculateShipping, SHIPPING_RATES]
  split_ifs <;> first | rfl | omega

theorem take_drop_succ_sublist (l : List CartLineItem) (i : ℕ) :
    List.Sublist (l.take i ++ l.drop (i + 1)) l := by
  have h1 : List.Sublist (l.drop (i + 1)) (l.drop i) := by
    have : l.drop (i + 1) = List.drop 1 (l.drop i) := by
      rw [List.drop_drop]
    rw [this]
    exact List.drop_sublist 1 (l.drop i)
  calc List.Sublist (l.take i ++ l.drop (i + 1)) (l.take i ++ l.drop i) := h1.append_left _
    _ = l := List.take_append_drop i l

theorem getProductIdFromURL_pos (idParam : Option String) (n : ℤ)
    (h : getProductIdFromURL idParam = some n) : 0 < n := by
  cases idParam with
  | none => simp [getProductIdFromURL] at h
  | some raw =>
    simp only [getProductIdFromURL] at h
    by_cases hr : raw = ""
    · simp [hr] at h
    · rw [if_neg hr] at h
      cases hp : jsParseInt raw with
      | none => simp [hp] at h
      | some m =>
        simp only [hp] at h
        by_cases hm : m ≤ 0
        · simp [hm] at h
        · rw [if_neg hm] at h
          cases h
          omega

theorem addToCart_preserves_nodup (cart : List CartLineItem) (product : Product)
    (h : CartIdsNodup cart) : CartIdsNodup (addToCart cart product).1 := by
  by_cases hfind : jsFindIndex (fun item => item.id == product.id) cart = -1
  · have hnone : ∀ item ∈ cart, item.id ≠ product.id := by
      intro item hmem
      have := (jsFindIndex_eq_neg_one_iff _ cart).mp hfind item hmem
      simpa using this
    have hadd : addToCart cart product = (cart ++ [projectCartItem product], .added) := by
      simp only [addToCart]
      rw [if_neg (not_not_intro hfind)]
    rw [hadd]
    unfold CartIdsNodup at h ⊢
    rw [List.map_append, List.nodup_append]
    refine ⟨h, by simp, ?_⟩
    intro a ha
    simp only [List.map_cons, List.map_nil, List.mem_cons, List.not_mem_nil, or_false]
    obtain ⟨item, hmem, rfl⟩ := List.mem_map.mp ha
    exact hnone item hmem
  · have hadd : addToCart cart product = (cart, .alreadyPresent) := by
      simp only [addToCart]
      rw [if_pos hfind]
    rw [hadd]
    exact h

theorem removeItemFromCart_preserves_nodup (cart : List CartLineItem) (index : ℤ)
    (h : CartIdsNodup cart) : CartIdsNodup (removeItemFromCart cart index).1 := by
  unfold removeItemFromCart
  split_ifs with hb
  · exact h.sublist ((take_drop_succ_sublist cart index.toNat).map _)
  · exact h

/-- Claim C1: for every cart, the shipping charge computed by computeTotals
is a function of the item count n alone (independent of the prices): 0 for
n = 0, 170 for n = 1, 220 for n = 2, 270 for 3 to 5 items, 350 for 6 or
more. -/
theorem shipping_is_step_function_of_count :
    (∀ cart : List CartLineItem,
      (calculateCart cart).shipping =
        (if cart.length = 0 then 0
         else if cart.length = 1 then 170
         else if cart.length = 2 then 220
         else if cart.length ≤ 5 then 270
         else 350 : ℚ)) ∧
    (∀ c₁ c₂ : List CartLineItem, c₁.length = c₂.length →
      (calculateCart c₁).shipping = (calculateCart c₂).shipping) := by
  constructor
  · intro cart
    show ((calculateShipping cart.length : ℕ) : ℚ) = _
    rw [calculateShipping_cases]
    split_ifs <;> norm_num
  · intro c₁ c₂ h
    show ((calculateShipping c₁.length : ℕ) : ℚ) = ((calculateShipping c₂.length : ℕ) : ℚ)
    rw [h]

/-- Claim C1 witness: two one-item carts with different prices are charged
the same shipping. -/
theorem shipping_is_step_function_of_count_witness :
    [sampleItemA].length = [sampleItemB].length ∧
    (calculateCart [sampleItemA]).shipping = (calculateCart [sampleItemB]).shipping :=
  ⟨rfl, shipping_is_step_function_of_count.2 [sampleItemA] [sampleItemB] rfl⟩

/-- Claim C2, counterexample: on a line item whose string price is 1$2 the
code removes the FIRST dollar sign, wherever it sits, and parses 12, while
the claim words the coercion as stripping a LEADING dollar sign only, which
would parse 1.  So the claimed subtotal equation fails on this cart. -/
theorem subtotal_leading_dollar_counterexample :
    ¬ ((calculateCart [cexItem]).subtotal =
        ([cexItem].map (fun item => claimCoercedPrice item.price)).sum) := by
  have hcode : jsParseFloatRepr (removeFirstDollar "1$2")
      = some { neg := false, mantissa := 12, fracLen := 0, exp := 0 } := by decide
  have hclaim : jsParseFloatRepr (stripLeadingDollar "1$2")
      = some { neg := false, mantissa := 1, fracLen := 0, exp := 0 } := by decide
  have hne : ("1$2" : String) ≠ "" := by decide
  have h1 : (calculateCart [cexItem]).subtotal = 12 := by
    show List.foldl (fun acc item => acc + coercePrice item.price) (0 : ℚ) [cexItem] = 12
    rw [foldl_add_prices]
    simp only [List.map_cons, List.map_nil, List.sum_cons, List.sum_nil]
    simp only [cexItem, coercePrice, if_neg hne, jsParseFloat, hcode, Option.map_some']
    norm_num [floatReprVal]
  have h2 : ([cexItem].map (fun item => claimCoercedPrice item.price)).sum = 1 := by
    simp only [List.map_cons, List.map_nil, List.sum_cons, List.sum_nil]
    simp only [cexItem, claimCoercedPrice, jsParseFloat, hclaim, Option.map_some']
    norm_num [floatReprVal]
  rw [h1, h2]
  norm_num

/-- Claim C2 as amended: the subtotal is the sum of the coerced prices where
a string price has its FIRST dollar-sign occurrence removed (not only a
leading one) before the decimal parse, empty or unparsable strings
contributing 0; and the total is subtotal plus shipping. -/
theorem subtotal_and_total_amended (cart : List CartLineItem) :
    (calculateCart cart).subtotal
        = (cart.map (fun item => amendedCoercedPrice item.price)).sum ∧
    (calculateCart cart).total
        = (calculateCart cart).subtotal + (calculateCart cart).shipping := by
  constructor
  · show List.foldl (fun acc item => acc + coercePrice item.price) (0 : ℚ) cart = _
    rw [foldl_add_prices]
    simp only [zero_add]
    congr 1
    exact List.map_congr_left (fun item _ => coercePrice_eq_amended item.price)
  · rfl

/-- Claim C3: adding a product whose id is already in the cart returns the
cart unchanged (same length) with outcome AlreadyPresent; adding a product
whose id is absent appends the projected line item (the CartLineItem type
drops the details field) and returns outcome Added. -/
theorem addToCart_contract (cart : List CartLineItem) (product : Product) :
    ((∃ item ∈ cart, item.id = product.id) →
      addToCart cart product = (cart, AddOutcome.alreadyPresent) ∧
      (addToCart cart product).1.length = cart.length) ∧
    ((∀ item ∈ cart, item.id ≠ product.id) →
      addToCart cart product = (cart ++ [projectCartItem product], AddOutcome.added)) := by
  constructor
  · rintro ⟨item, hmem, hid⟩
    have hfind : jsFindIndex (fun it => it.id == product.id) cart ≠ -1 := by
      intro hc
      have := (jsFindIndex_eq_neg_one_iff _ cart).mp hc item hmem
      simp [hid] at this
    have hadd : addToCart cart product = (cart, .alreadyPresent) := by
      simp only [addToCart]
      rw [if_pos hfind]
    exact ⟨hadd, by rw [hadd]⟩
  · intro hnone
    have hfind : jsFindIndex (fun it => it.id == product.id) cart = -1 := by
      apply (jsFindIndex_eq_neg_one_iff _ cart).mpr
      intro x hx
      simpa using hnone x hx
    simp only [addToCart]
    rw [if_neg (not_not_intro hfind)]

/-- Claim C3 witness: adding a sample product to the empty cart appends its
projection; adding it again on top of that projection is rejected with the
cart unchanged. -/
theorem addToCart_contract_witness :
    addToCart [] sampleProduct
        = ([projectCartItem sampleProduct], AddOutcome.added) ∧
    (∃ item ∈ [projectCartItem sampleProduct], item.id = sampleProduct.id) ∧
    addToCart [projectCartItem sampleProduct] sampleProduct
        = ([projectCartItem sampleProduct], AddOutcome.alreadyPresent) := by
  refine ⟨?_, ⟨projectCartItem sampleProduct, by simp, rfl⟩, ?_⟩
  · simpa using (addToCart_contract [] sampleProduct).2 (by simp)
  · exact (((addToCart_contract [projectCartItem sampleProduct] sampleProduct).1
      ⟨projectCartItem sampleProduct, by simp, rfl⟩).1)

/-- Claim C5: filtering by a category other than the sentinel All keeps
exactly the products whose category field equals the requested one, under
case-sensitive string equality, in the input order; filtering by All
returns the input list itself. -/
theorem filterByCategory_contract (P : List Product) (c : String) :
    (c ≠ "All" →
      filterByCategory P c = P.filter (fun p => p.category == c) ∧
      List.Sublist (filterByCategory P c) P ∧
      (∀ p : Product, p ∈ filterByCategory P c ↔ p ∈ P ∧ p.category = c)) ∧
    filterByCategory P "All" = P := by
  constructor
  · intro hc
    have heq : filterByCategory P c = P.filter (fun p => p.category == c) := by
      simp only [filterByCategory]
      rw [if_neg hc]
    refine ⟨heq, ?_, ?_⟩
    · rw [heq]
      exact List.filter_sublist P
    · intro p
      rw [heq, List.mem_filter]
      simp
  · simp [filterByCategory]

/-- Claim C5 witness at a two-product catalogue and the category Cameras. -/
theorem filterByCategory_contract_witness :
    ("Cameras" : String) ≠ "All" ∧
    (sampleProduct ∈ filterByCategory [sampleProduct, sampleProduct2] "Cameras" ↔
      sampleProduct ∈ [sampleProduct, sampleProduct2] ∧ sampleProduct.category = "Cameras") ∧
    filterByCategory [sampleProduct, sampleProduct2] "All" = [sampleProduct, sampleProduct2] :=
  ⟨by decide,
   ((filterByCategory_contract [sampleProduct, sampleProduct2] "Cameras").1
       (by decide)).2.2 sampleProduct,
   (filterByCategory_contract [sampleProduct, sampleProduct2] "All").2⟩

/-- Claim C6: with a query whose normalisation (lower-case, trimmed) is
empty, search returns the input list unchanged; with a non-empty normalised
query it returns, in input order, exactly the products in which the query
occurs case-insensitively in the name, brand, category or (when present)
summary. -/
theorem search_contract (P : List Product) (raw : String) :
    (handleSearchQuery raw = "" → search P raw = P) ∧
    (handleSearchQuery raw ≠ "" →
      List.Sublist (search P raw) P ∧
      (∀ p : Product,
        p ∈ search P raw ↔ p ∈ P ∧ specSearchMatch p (handleSearchQuery raw))) := by
  constructor
  · intro h
    simp [search, filterProducts, h]
  · intro h
    have hopen : search P raw
        = P.filter (fun product =>
            strIncludes (jsToLower product.name) (handleSearchQuery raw) ||
            strIncludes (jsToLower product.brand) (handleSearchQuery raw) ||
            strIncludes (jsToLower product.category) (handleSearchQuery raw) ||
            summaryMatches product.summary (handleSearchQuery raw)) := by
      simp only [search, filterProducts]
      rw [if_neg h]
    refine ⟨?_, ?_⟩
    · rw [hopen]
      exact List.filter_sublist P
    · intro p
      rw [hopen, List.mem_filter]
      simp only [Bool.or_eq_true, strIncludes_iff, summaryMatches_iff p.summary _ h,
        specSearchMatch]
      tauto

/-- Claim C6 witness: a padded upper-case query is normalised and matched
case-insensitively. -/
theorem search_contract_witness :
    handleSearchQuery "  AURORA  " ≠ "" ∧
    (sampleProduct ∈ search [sampleProduct, sampleProduct2] "  AURORA  " ↔
      sampleProduct ∈ [sampleProduct, sampleProduct2] ∧
        specSearchMatch sampleProduct (handleSearchQuery "  AURORA  ")) :=
  ⟨by decide,
   ((search_contract [sampleProduct, sampleProduct2] "  AURORA  ").2 (by decide)).2
     sampleProduct⟩

/-- Claim C7: an index outside the valid positions leaves the cart alone
and reports IndexOutOfRange; a valid index removes exactly the element at
that position (the remaining items keep their relative order) and reports
Removed with that element's name. -/
theorem removeItemFromCart_contract (cart : List CartLineItem) (index : ℤ) :
    (¬ (0 ≤ index ∧ index < (cart.length : ℤ)) →
      removeItemFromCart cart index = (cart, RemoveOutcome.indexOutOfRange)) ∧
    (∀ h : 0 ≤ index ∧ index < (cart.length : ℤ),
      removeItemFromCart cart index =
        (cart.eraseIdx index.toNat,
         RemoveOutcome.removed ((cart.get ⟨index.toNat, by omega⟩).name))) := by
  constructor
  · intro h
    simp only [removeItemFromCart]
    rw [dif_neg h]
  · intro h
    simp only [removeItemFromCart]
    rw [dif_pos h, List.eraseIdx_eq_take_drop_succ]

/-- Claim C7 witness: on a two-item cart, index 1 removes the second item
and reports its name, index 5 is out of range. -/
theorem removeItemFromCart_contract_witness :
    (0 ≤ (1 : ℤ) ∧ (1 : ℤ) < (([sampleItemA, sampleItemB].length : ℕ) : ℤ)) ∧
    removeItemFromCart [sampleItemA, sampleItemB] 1
        = ([sampleItemA, sampleItemB].eraseIdx 1, RemoveOutcome.removed sampleItemB.name) ∧
    removeItemFromCart [sampleItemA, sampleItemB] 5
        = ([sampleItemA, sampleItemB], RemoveOutcome.indexOutOfRange) :=
  ⟨by constructor <;> decide,
   (removeItemFromCart_contract [sampleItemA, sampleItemB] 1).2 (by constructor <;> decide),
   (removeItemFromCart_contract [sampleItemA, sampleItemB] 5).1 (by decide)⟩

/-- Claim C8: pairwise-distinct line-item ids is an invariant — it holds
for the empty cart, is preserved by every add and every remove, and hence
holds for every cart reachable from the empty cart by these operations. -/
theorem cart_ids_nodup_invariant :
    CartIdsNodup [] ∧
    (∀ (cart : List CartLineItem) (product : Product),
      CartIdsNodup cart → CartIdsNodup (addToCart cart product).1) ∧
    (∀ (cart : List CartLineItem) (index : ℤ),
      CartIdsNodup cart → CartIdsNodup (removeItemFromCart cart index).1) ∧
    (∀ cart : List CartLineItem, ReachableCart cart → CartIdsNodup cart) := by
  refine ⟨by simp [CartIdsNodup], addToCart_preserves_nodup,
    removeItemFromCart_preserves_nodup, ?_⟩
  intro cart hreach
  induction hreach with
  | empty => simp [CartIdsNodup]
  | add cart product _ ih => exact addToCart_preserves_nodup cart product ih
  | remove cart index _ ih => exact removeItemFromCart_preserves_nodup cart index ih

/-- Claim C8 witness: a cart reached by one add and one remove from the
empty cart has pairwise-distinct ids. -/
theorem cart_ids_nodup_invariant_witness :
    CartIdsNodup (removeItemFromCart (addToCart [] sampleProduct).1 0).1 :=
  cart_ids_nodup_invariant.2.2.2 _
    (ReachableCart.remove _ 0 (ReachableCart.add [] sampleProduct ReachableCart.empty))

/-- Claim C9: an absent query parameter, a value parseInt cannot read
(modelling non-numeric), a non-positive parsed value, and a parsed id with
no matching product all yield the not-found presentation; the detail view
is shown only for a parameter that parses to a positive id carried by some
catalogue product.  All paths are total — no crash. -/
theorem detailPage_contract (products : List Product) (idParam : Option String) :
    (idParam = none → detailPage products idParam = DetailView.notFound) ∧
    (∀ raw, idParam = some raw → jsParseInt raw = none →
      detailPage products idParam = DetailView.notFound) ∧
    (∀ raw n, idParam = some raw → jsParseInt raw = some n → n ≤ 0 →
      detailPage products idParam = DetailView.notFound) ∧
    (∀ n, getProductIdFromURL idParam = some n →
      products.find? (fun p => p.id == n) = none →
      detailPage products idParam = DetailView.notFound) ∧
    (∀ p, detailPage products idParam = DetailView.productDetail p →
      ∃ n, getProductIdFromURL idParam = some n ∧ 0 < n ∧ p ∈ products ∧ p.id = n) := by
  refine ⟨?_, ?_, ?_, ?_, ?_⟩
  · rintro rfl
    rfl
  · rintro raw rfl hparse
    simp only [detailPage, getProductIdFromURL]
    by_cases hr : raw = ""
    · rw [if_pos hr]
    · rw [if_neg hr, hparse]
  · rintro raw n rfl hparse hn
    have hr : raw ≠ "" := by
      intro hc
      rw [hc, show jsParseInt "" = (none : Option ℤ) from by decide] at hparse
      exact Option.noConfusion hparse
    simp only [detailPage, getProductIdFromURL, if_neg hr, hparse, if_pos hn]
  · intro n hget hfind
    simp only [detailPage, hget, loadProductDetails, hfind]
  · intro p hshow
    rcases hget : getProductIdFromURL idParam with _ | n
    · simp only [detailPage, hget] at hshow
      exact DetailView.noConfusion hshow
    · simp only [detailPage, hget, loadProductDetails] at hshow
      rcases hfind : products.find? (fun q => q.id == n) with _ | q
      · rw [hfind] at hshow
        exact DetailView.noConfusion hshow
      · rw [hfind] at hshow
        cases hshow
        exact ⟨n, rfl, getProductIdFromURL_pos idParam n hget,
          List.mem_of_find?_eq_some hfind, by simpa using List.find?_some hfind⟩

/-- Claim C9 witness: a non-numeric parameter and an absent parameter both
land on the not-found presentation for a one-product catalogue. -/
theorem detailPage_contract_witness :
    jsParseInt "abc" = none ∧
    detailPage [sampleProduct] (some "abc") = DetailView.notFound ∧
    detailPage [sampleProduct] none = DetailView.notFound :=
  ⟨by decide,
   (detailPage_contract [sampleProduct] (some "abc")).2.1 "abc" rfl (by decide),
   (detailPage_contract [sampleProduct] none).1 rfl⟩

/-- Claim C4 (code bug evidence): loadCartFromStorage (src/cart.js) maps a
missing or malformed stored value to the empty cart without throwing, but
window.getCart (src/script.js lines 500-502) calls JSON.parse with no
try / catch, so the same malformed stored value makes it throw a
SyntaxError to the caller instead of returning an empty cart. -/
theorem getCart_throws_on_malformed_value :
    loadCartFromStorage StoredVal.absent = Js.arr [] ∧
    loadCartFromStorage (StoredVal.malformed "not json") = Js.arr [] ∧
    (∀ s : StoredVal, loadCartFromStorage s = Js.arr [] ∨
      ∃ v : Js, s = StoredVal.wellFormed v ∧ loadCartFromStorage s = v) ∧
    getCart (StoredVal.malformed "not json") = Except.error "SyntaxError" := by
  refine ⟨rfl, rfl, ?_, rfl⟩
  intro s
  cases s with
  | absent => exact Or.inl rfl
  | malformed raw => exact Or.inl rfl
  | wellFormed v => exact Or.inr ⟨v, rfl, rfl⟩

/-- Claim C10: persisting a cart stores a value that reads back as exactly
the serialised cart, and persisting what was just read leaves the stored
value denoting the same cart (read after it gives the same result), for
every starting content of the storage key. -/
theorem persist_read_roundtrip :
    (∀ cart : List CartLineItem,
      loadCartFromStorage (persistCart cart) = cartToJs cart) ∧
    (∀ s : StoredVal,
      loadCartFromStorage (persistJs (loadCartFromStorage s)) = loadCartFromStorage s) := by
  constructor
  · intro cart
    rfl
  · intro s
    cases s <;> rfl

end LenseForge
